import Mathlib

/-!
# Shallow embedding of the e-commerce backend route handlers

This file embeds the data model and the route handlers of the Express/Prisma
e-commerce backend (`src/routes/orders.js`, `src/routes/products.js`, and the
users/cart/wishlist routers bundled with them) as pure Lean functions over an
explicit database state, and proves the behavioural claims about them.

Modelling conventions:
* Database-generated ids (Prisma cuids) are modelled as naturals drawn from a
  `nextId` counter carried in the state; freshness/uniqueness of generated ids
  is a well-formedness hypothesis where a proof needs it.
* Decimal `price` values are modelled as exact rationals `ℚ` (the JS code
  computes with IEEE doubles; all claims here are about the algebraic shape of
  the computation, which the rational model captures).
* `stock` is an `Int`, since nothing in the schema prevents it from going
  negative; `quantity` is a `Nat` (the validator enforces an integer ≥ 1,
  which theorems take as a hypothesis where it matters).
* Each handler takes the authenticated user (what the auth middleware puts in
  `req.user`) and the parsed request, and returns a response value paired with
  the database state after the handler ran.  Paths on which Prisma throws
  (e.g. `update` on a missing row) are modelled as a `serverError` response
  with the state unchanged, matching the catch-all `500` in every handler.
-/

/-- A row of the `User` table.  `role` is the Prisma enum rendered as the
strings the handlers compare against: `"USER"`, `"SELLER"`, `"ADMIN"`. -/
structure User where
  id : Nat
  email : String
  name : String
  role : String
  deriving DecidableEq

/-- A row of the `Product` table (the fields the embedded handlers read or
write). -/
structure Product where
  id : Nat
  name : String
  description : String
  price : ℚ
  stock : Int
  imageUrl : String
  categoryId : String
  isActive : Bool
  gender : String
  brand : String
  sellerId : Option Nat
  deriving DecidableEq

/-- A row of the `CartItem` table; `(userId, productId)` is unique in the
schema. -/
structure CartItem where
  id : Nat
  userId : Nat
  productId : Nat
  quantity : Nat
  deriving DecidableEq

/-- A row of the `Order` table. -/
structure Order where
  id : Nat
  userId : Nat
  total : ℚ
  status : String
  deriving DecidableEq

/-- A row of the `OrderItem` table; `price` is the snapshot taken at order
creation. -/
structure OrderItem where
  id : Nat
  orderId : Nat
  productId : Nat
  quantity : Nat
  price : ℚ
  deriving DecidableEq

/-- A row of the `WishlistItem` table; `(userId, productId)` is unique. -/
structure WishlistItem where
  id : Nat
  userId : Nat
  productId : Nat
  deriving DecidableEq

/-- The database state: the tables the handlers touch, plus the id
generator. -/
structure DB where
  users : List User
  products : List Product
  cartItems : List CartItem
  orders : List Order
  orderItems : List OrderItem
  wishlistItems : List WishlistItem
  nextId : Nat
  deriving DecidableEq

/-- `prisma.product.findUnique({ where: { id } })`. -/
def findProduct (db : DB) (pid : Nat) : Option Product :=
  db.products.find? (fun p => p.id == pid)

/-- Join a list of cart rows with their product rows; `none` models the
throw (→ 500) that accessing `item.product` would produce if a referenced
product row were missing. -/
def joinCart (db : DB) : List CartItem → Option (List (CartItem × Product))
  | [] => some []
  | c :: rest =>
    match findProduct db c.productId, joinCart db rest with
    | some p, some ls => some ((c, p) :: ls)
    | _, _ => none

/-- `prisma.cartItem.findMany({ where: { userId }, include: { product } })`:
the user's cart lines joined with their product rows. -/
def fetchCart (db : DB) (uid : Nat) : Option (List (CartItem × Product)) :=
  joinCart db (db.cartItems.filter (fun c => c.userId == uid))

/-- The stock-check/total loop of `POST /api/orders`: walk the cart lines in
order; on the first line with `product.stock < quantity` stop with that
product's name (the handler returns 400 there), otherwise accumulate
`price * quantity`. -/
def checkStockAndTotal : List (CartItem × Product) → Except String ℚ
  | [] => .ok 0
  | (c, p) :: rest =>
    if p.stock < (c.quantity : Int) then
      .error p.name
    else
      match checkStockAndTotal rest with
      | .error e => .error e
      | .ok t => .ok (p.price * (c.quantity : ℚ) + t)

/-- `prisma.product.update({ where: { id }, data: { stock: { decrement } } })`. -/
def decStock (ps : List Product) (pid : Nat) (q : Nat) : List Product :=
  ps.map (fun p => if p.id == pid then { p with stock := p.stock - (q : Int) } else p)

/-- The per-line body of the order transaction: for each cart line, create an
`OrderItem` (price copied from the joined product row) and decrement the
product's stock. -/
def txLines (oid : Nat) : List (CartItem × Product) → DB → DB
  | [], db => db
  | (c, p) :: rest, db =>
    let oi : OrderItem :=
      { id := db.nextId, orderId := oid, productId := c.productId,
        quantity := c.quantity, price := p.price }
    let db' : DB :=
      { db with
        orderItems := db.orderItems ++ [oi],
        products := decStock db.products c.productId c.quantity,
        nextId := db.nextId + 1 }
    txLines oid rest db'

/-- The whole `prisma.$transaction` body of `POST /api/orders`: create the
`Order` row (status `PENDING`), create the order items and decrement stock
line by line, then delete all of the user's cart items. -/
def orderTransaction (db : DB) (uid : Nat) (lines : List (CartItem × Product))
    (total : ℚ) : Order × DB :=
  let o : Order := { id := db.nextId, userId := uid, total := total, status := "PENDING" }
  let db1 : DB := { db with orders := db.orders ++ [o], nextId := db.nextId + 1 }
  let db2 := txLines o.id lines db1
  let db3 : DB := { db2 with cartItems := db2.cartItems.filter (fun c => c.userId != uid) }
  (o, db3)

/-- Responses of `POST /api/orders`. -/
inductive OrderResp where
  /-- 201 with the created order re-read together with its order items. -/
  | created (o : Order) (items : List OrderItem)
  /-- 400 with an error message. -/
  | badRequest (msg : String)
  /-- 500. -/
  | serverError
  deriving DecidableEq

/-- `POST /api/orders`: load the user's cart (joined with products), 400 on an
empty cart, 400 on the first line with insufficient stock, otherwise run the
transaction and answer 201 with the re-read order. -/
def createOrder (db : DB) (uid : Nat) : OrderResp × DB :=
  match fetchCart db uid with
  | none => (.serverError, db)
  | some lines =>
    if lines.isEmpty then
      (.badRequest "Cart is empty", db)
    else
      match checkStockAndTotal lines with
      | .error n => (.badRequest ("Insufficient stock for " ++ n), db)
      | .ok total =>
        let (o, db') := orderTransaction db uid lines total
        (.created o (db'.orderItems.filter (fun i => i.orderId == o.id)), db')

/-- Responses of `GET /api/orders/:id`. -/
inductive OrderGetResp where
  /-- 200 with the order and its items. -/
  | ok (o : Order) (items : List OrderItem)
  /-- 404 `Order not found`. -/
  | notFound
  deriving DecidableEq

/-- `GET /api/orders/:id`: `findFirst` scoped by both the path id and the
authenticated user's id; 404 when no such row. -/
def getOrderById (db : DB) (uid : Nat) (oid : Nat) : OrderGetResp :=
  match db.orders.find? (fun o => o.id == oid && o.userId == uid) with
  | none => .notFound
  | some o => .ok o (db.orderItems.filter (fun i => i.orderId == o.id))

/-- Responses of `POST /api/cart`. -/
inductive CartResp where
  /-- 201 with the created/updated cart line. -/
  | created (item : CartItem)
  /-- 404 `Product not found`. -/
  | notFound
  /-- 400 with an error message. -/
  | badRequest (msg : String)
  deriving DecidableEq

/-- `POST /api/cart` (after the validator has accepted `productId` and an
integer `quantity ≥ 1`): 404 if the product does not exist, 400
`Insufficient stock` if `product.stock < quantity`, otherwise merge into an
existing `(userId, productId)` line or create a fresh one. -/
def addToCart (db : DB) (uid : Nat) (pid : Nat) (qty : Nat) : CartResp × DB :=
  match findProduct db pid with
  | none => (.notFound, db)
  | some p =>
    if p.stock < (qty : Int) then
      (.badRequest "Insufficient stock", db)
    else
      match db.cartItems.find? (fun c => c.userId == uid && c.productId == pid) with
      | some existing =>
        let updated : CartItem := { existing with quantity := existing.quantity + qty }
        (.created updated,
          { db with cartItems :=
              db.cartItems.map (fun c => if c.id == existing.id then updated else c) })
      | none =>
        let item : CartItem := { id := db.nextId, userId := uid, productId := pid, quantity := qty }
        (.created item,
          { db with cartItems := db.cartItems ++ [item], nextId := db.nextId + 1 })

/-- Responses of `PUT /api/cart/:id` and `DELETE /api/cart/:id`. -/
inductive CartRowResp where
  /-- 200. -/
  | ok (item : CartItem)
  /-- 200 for the delete route (message only). -/
  | removed
  /-- 500 (Prisma throws when the scoped row does not exist). -/
  | serverError
  deriving DecidableEq

/-- `PUT /api/cart/:id` (validator: integer `quantity ≥ 1`): update the cart
line scoped by `{ id, userId }`; Prisma's `update` throws when there is no
such row, which the handler surfaces as 500. -/
def updateCartItem (db : DB) (uid : Nat) (cid : Nat) (qty : Nat) : CartRowResp × DB :=
  match db.cartItems.find? (fun c => c.id == cid && c.userId == uid) with
  | none => (.serverError, db)
  | some c =>
    let updated : CartItem := { c with quantity := qty }
    (.ok updated,
      { db with cartItems := db.cartItems.map (fun x => if x.id == c.id then updated else x) })

/-- `DELETE /api/cart/:id`: delete the cart line scoped by `{ id, userId }`;
Prisma's `delete` throws (→ 500) when there is no such row. -/
def deleteCartItem (db : DB) (uid : Nat) (cid : Nat) : CartRowResp × DB :=
  if db.cartItems.any (fun c => c.id == cid && c.userId == uid) then
    (.removed,
      { db with cartItems := db.cartItems.filter (fun c => !(c.id == cid && c.userId == uid)) })
  else
    (.serverError, db)

/-- The request body of `PUT /api/products/:id`; `none` is an absent field.
The handler spreads `...(field && { field })` for the string fields and
`price`, and `...(field !== undefined && { field })` for `stock` and
`isActive`. -/
structure ProductUpdateBody where
  name : Option String := none
  description : Option String := none
  price : Option ℚ := none
  stock : Option Int := none
  imageUrl : Option String := none
  categoryId : Option String := none
  isActive : Option Bool := none
  gender : Option String := none
  deriving DecidableEq

/-- JS truthiness for an optional string field: present and non-empty. -/
def updStr (cur : String) : Option String → String
  | none => cur
  | some s => if s = "" then cur else s

/-- The `data` object built by `PUT /api/products/:id`: each field is
overwritten only when its body field is truthy (for `stock`/`isActive`:
merely defined); `gender` is upper-cased. -/
def applyProductUpdate (p : Product) (b : ProductUpdateBody) : Product :=
  { p with
    name := updStr p.name b.name,
    description := updStr p.description b.description,
    price := match b.price with
      | none => p.price
      | some q => if q = 0 then p.price else q,
    stock := b.stock.getD p.stock,
    imageUrl := updStr p.imageUrl b.imageUrl,
    categoryId := updStr p.categoryId b.categoryId,
    isActive := b.isActive.getD p.isActive,
    gender := match b.gender with
      | none => p.gender
      | some g => if g = "" then p.gender else g.toUpper }

/-- Responses of the product mutation routes. -/
inductive ProductResp where
  /-- 200/201 with the product row. -/
  | ok (p : Product)
  /-- 403 with a message. -/
  | forbidden (msg : String)
  /-- 400 (validation failure). -/
  | badRequest
  /-- 500 (Prisma throws on update of a missing id). -/
  | serverError
  deriving DecidableEq

/-- `PUT /api/products/:id`: 403 unless `req.user.role === 'ADMIN'`, then a
conditional-spread update of the product row; Prisma throws (→ 500) when the
id does not exist. -/
def updateProduct (db : DB) (u : User) (pid : Nat) (b : ProductUpdateBody) :
    ProductResp × DB :=
  if u.role ≠ "ADMIN" then
    (.forbidden "Access denied. Admin only.", db)
  else
    match findProduct db pid with
    | none => (.serverError, db)
    | some p =>
      let p' := applyProductUpdate p b
      (.ok p',
        { db with products := db.products.map (fun q => if q.id == pid then p' else q) })

/-- The request body of `POST /api/products` (fields the handler reads). -/
structure ProductCreateBody where
  name : String
  description : String
  price : ℚ
  stock : Int
  imageUrl : String
  categoryId : String
  brand : Option String := none
  gender : Option String := none
  sellerId : Option Nat := none
  deriving DecidableEq

/-- `POST /api/products`: 403 unless the role is ADMIN or SELLER, then the
express-validator checks (non-empty name, price > 0, integer stock ≥ 0,
non-empty categoryId), then create the row; a SELLER's own id is attached as
`sellerId`, an ADMIN may pass one in the body. -/
def createProduct (db : DB) (u : User) (b : ProductCreateBody) : ProductResp × DB :=
  if u.role ≠ "ADMIN" ∧ u.role ≠ "SELLER" then
    (.forbidden "Access denied. Admin or Seller only.", db)
  else if b.name = "" ∨ b.price ≤ 0 ∨ b.stock < 0 ∨ b.categoryId = "" then
    (.badRequest, db)
  else
    let p : Product :=
      { id := db.nextId, name := b.name, description := b.description,
        price := b.price, stock := b.stock, imageUrl := b.imageUrl,
        categoryId := b.categoryId, isActive := true,
        gender := (b.gender.map String.toUpper).getD "",
        brand := b.brand.getD "",
        sellerId := if u.role = "SELLER" then some u.id else b.sellerId }
    (.ok p, { db with products := db.products ++ [p], nextId := db.nextId + 1 })

/-- Responses of `POST /api/users/become-seller`. -/
inductive SellerResp where
  /-- 200 with the updated user. -/
  | ok (u : User)
  /-- 400 `User is already a seller`. -/
  | badRequest (msg : String)
  /-- 500. -/
  | serverError
  deriving DecidableEq

/-- `POST /api/users/become-seller`: 400 when `req.user.role === 'SELLER'`,
otherwise update the user's row to role SELLER. -/
def becomeSeller (db : DB) (u : User) : SellerResp × DB :=
  if u.role = "SELLER" then
    (.badRequest "User is already a seller", db)
  else
    match db.users.find? (fun v => v.id == u.id) with
    | none => (.serverError, db)
    | some v =>
      let v' : User := { v with role := "SELLER" }
      (.ok v',
        { db with users := db.users.map (fun w => if w.id == v.id then v' else w) })

/-- Responses of the wishlist routes. -/
inductive WishResp where
  /-- 201 with the created row. -/
  | created (w : WishlistItem)
  /-- 404 `Product not found`. -/
  | notFound
  /-- 400 `Product already in wishlist`. -/
  | badRequest (msg : String)
  /-- 200 for the delete route. -/
  | removed
  /-- 500. -/
  | serverError
  deriving DecidableEq

/-- `POST /api/wishlist`: 404 if the product does not exist, 400 on a
duplicate `(userId, productId)`, otherwise create the row. -/
def addToWishlist (db : DB) (uid : Nat) (pid : Nat) : WishResp × DB :=
  match findProduct db pid with
  | none => (.notFound, db)
  | some _ =>
    match db.wishlistItems.find? (fun w => w.userId == uid && w.productId == pid) with
    | some _ => (.badRequest "Product already in wishlist", db)
    | none =>
      let w : WishlistItem := { id := db.nextId, userId := uid, productId := pid }
      (.created w,
        { db with wishlistItems := db.wishlistItems ++ [w], nextId := db.nextId + 1 })

/-- `DELETE /api/wishlist/:productId`: delete by the composite unique key;
Prisma throws (→ 500) when there is no such row. -/
def deleteWishlistItem (db : DB) (uid : Nat) (pid : Nat) : WishResp × DB :=
  if db.wishlistItems.any (fun w => w.userId == uid && w.productId == pid) then
    (.removed,
      { db with wishlistItems :=
          db.wishlistItems.filter (fun w => !(w.userId == uid && w.productId == pid)) })
  else
    (.serverError, db)

/-- The sum `price * quantity` over joined cart lines (the value the total
loop accumulates when every stock check passes). -/
def linesTotal : List (CartItem × Product) → ℚ
  | [] => 0
  | (c, p) :: rest => p.price * (c.quantity : ℚ) + linesTotal rest

/-- Total quantity ordered for a given product id across the cart lines of
one order placement. -/
def orderedQty (pid : Nat) : List (CartItem × Product) → Int
  | [] => 0
  | (c, _) :: rest => (if c.productId = pid then (c.quantity : Int) else 0) + orderedQty pid rest

/-- No product row has negative stock. -/
def StockNonneg (db : DB) : Prop := ∀ p ∈ db.products, 0 ≤ p.stock

/-- Schema-level well-formedness of the cart table: the composite key
`(userId, productId)` is unique, row ids are unique, and ids are below the
generator. -/
def CartWF (db : DB) : Prop :=
  (db.cartItems.map (fun c => (c.userId, c.productId))).Nodup
  ∧ (db.cartItems.map (fun c => c.id)).Nodup
  ∧ ∀ c ∈ db.cartItems, c.id < db.nextId

/-- Schema-level well-formedness of the product table: ids unique and below
the generator. -/
def ProductsWF (db : DB) : Prop :=
  (db.products.map (fun p => p.id)).Nodup ∧ ∀ p ∈ db.products, p.id < db.nextId

/-- The conjunction of [StockNonneg] with the schema constraints the sequential
argument needs. -/
def DbInv (db : DB) : Prop := StockNonneg db ∧ CartWF db ∧ ProductsWF db

/-- One sequential execution step: some mutating route handler runs to
completion.  (The category routes touch only the unmodelled `Category`
table and the out-of-scope auth routes only the `User` table, so they are
irrelevant to stock.)  `addToCart`/`updateCartItem` carry the
express-validator bound `quantity ≥ 1`. -/
inductive Step : DB → DB → Prop
  | addCart (db : DB) (uid pid qty : Nat) (hq : 1 ≤ qty) :
      Step db (addToCart db uid pid qty).2
  | updateCart (db : DB) (uid cid qty : Nat) (hq : 1 ≤ qty) :
      Step db (updateCartItem db uid cid qty).2
  | removeCart (db : DB) (uid cid : Nat) : Step db (deleteCartItem db uid cid).2
  | placeOrder (db : DB) (uid : Nat) : Step db (createOrder db uid).2
  | updateProd (db : DB) (u : User) (pid : Nat) (b : ProductUpdateBody) :
      Step db (updateProduct db u pid b).2
  | createProd (db : DB) (u : User) (b : ProductCreateBody) :
      Step db (createProduct db u b).2
  | seller (db : DB) (u : User) : Step db (becomeSeller db u).2
  | addWish (db : DB) (uid pid : Nat) : Step db (addToWishlist db uid pid).2
  | removeWish (db : DB) (uid pid : Nat) : Step db (deleteWishlistItem db uid pid).2

/-- Reachability under [Step]. -/
def Reachable : DB → DB → Prop := Relation.ReflTransGen Step

/-- The same step relation, restricted so that a product update never
supplies a negative `stock` value in its body. -/
inductive StepOk : DB → DB → Prop
  | addCart (db : DB) (uid pid qty : Nat) (hq : 1 ≤ qty) :
      StepOk db (addToCart db uid pid qty).2
  | updateCart (db : DB) (uid cid qty : Nat) (hq : 1 ≤ qty) :
      StepOk db (updateCartItem db uid cid qty).2
  | removeCart (db : DB) (uid cid : Nat) : StepOk db (deleteCartItem db uid cid).2
  | placeOrder (db : DB) (uid : Nat) : StepOk db (createOrder db uid).2
  | updateProd (db : DB) (u : User) (pid : Nat) (b : ProductUpdateBody)
      (hs : ∀ s, b.stock = some s → 0 ≤ s) :
      StepOk db (updateProduct db u pid b).2
  | createProd (db : DB) (u : User) (b : ProductCreateBody) :
      StepOk db (createProduct db u b).2
  | seller (db : DB) (u : User) : StepOk db (becomeSeller db u).2
  | addWish (db : DB) (uid pid : Nat) : StepOk db (addToWishlist db uid pid).2
  | removeWish (db : DB) (uid pid : Nat) : StepOk db (deleteWishlistItem db uid pid).2

/-- Reachability under [StepOk]. -/
def ReachableOk : DB → DB → Prop := Relation.ReflTransGen StepOk

/-! ### Concrete sample data for witnesses and counterexamples -/

/-- A plain customer. -/
def userU : User := { id := 1, email := "u@example.com", name := "U", role := "USER" }

/-- An administrator. -/
def adminA : User := { id := 2, email := "a@example.com", name := "A", role := "ADMIN" }

/-- A seller. -/
def sellerS : User := { id := 3, email := "s@example.com", name := "S", role := "SELLER" }

/-- A product with price 10 and stock 5. -/
def prodA : Product :=
  { id := 10, name := "Shirt", description := "d", price := 10, stock := 5,
    imageUrl := "i", categoryId := "cat1", isActive := true, gender := "MEN",
    brand := "B", sellerId := none }

/-- User 1's cart line: 2 units of product 10. -/
def cartLine2 : CartItem := { id := 100, userId := 1, productId := 10, quantity := 2 }

/-- User 1's cart line asking for 9 units of product 10 (more than its stock). -/
def cartLine9 : CartItem := { id := 101, userId := 1, productId := 10, quantity := 9 }

/-- A sample database: three users, one product, user 1 has 2 units of
product 10 in the cart. -/
def dbMain : DB :=
  { users := [userU, adminA, sellerS], products := [prodA], cartItems := [cartLine2],
    orders := [], orderItems := [], wishlistItems := [], nextId := 200 }

/-- As [dbMain] but the cart asks for more than the stock. -/
def dbIns : DB := { dbMain with cartItems := [cartLine9] }

/-- As [dbMain] but with an empty cart. -/
def dbNoCart : DB := { dbMain with cartItems := [] }

/-- An order row belonging to user 2. -/
def orderOf2 : Order := { id := 50, userId := 2, total := 7, status := "PENDING" }

/-- As [dbNoCart] plus one order that belongs to user 2. -/
def dbOrder2 : DB := { dbNoCart with orders := [orderOf2] }

/-- A product-update body that sets `stock` to `-1` and nothing else. -/
def bodyNegStock : ProductUpdateBody := { stock := some (-1) }

/-- The state after an admin issues `PUT /api/products/10` with
`{ stock: -1 }` against [dbMain]. -/
def dbNegStock : DB := (updateProduct dbMain adminA 10 bodyNegStock).2

/-! ### Helper lemmas about the order-placement pipeline -/

/-- When every line has sufficient stock, the check/total loop succeeds and
returns exactly the sum of `price * quantity`. -/
theorem checkStockAndTotal_ok_of_le :
    ∀ lines : List (CartItem × Product),
      (∀ lp ∈ lines, (lp.1.quantity : Int) ≤ lp.2.stock) →
      checkStockAndTotal lines = .ok (linesTotal lines)
  | [], _ => rfl
  | (c, p) :: rest, h => by
    have hcp : (c.quantity : Int) ≤ p.stock := h (c, p) (List.mem_cons_self _ _)
    have hrest := checkStockAndTotal_ok_of_le rest
      (fun lp hm => h lp (List.mem_cons_of_mem _ hm))
    simp [checkStockAndTotal, linesTotal, not_lt.2 hcp, hrest]

/-- Conversely, when the check/total loop succeeds, every line had sufficient
stock. -/
theorem le_stock_of_checkStockAndTotal_ok :
    ∀ (lines : List (CartItem × Product)) (t : ℚ),
      checkStockAndTotal lines = .ok t →
      ∀ lp ∈ lines, (lp.1.quantity : Int) ≤ lp.2.stock := by
  intro lines
  induction lines with
  | nil => intro t _ lp hm; cases hm
  | cons hd tl ih =>
    rcases hd with ⟨c, p⟩
    intro t h lp hm
    by_cases hlt : p.stock < (c.quantity : Int)
    · simp [checkStockAndTotal, hlt] at h
    · rcases List.mem_cons.1 hm with rfl | hm'
      · exact not_lt.1 hlt
      · rcases hr : checkStockAndTotal tl with e | t'
        · simp [checkStockAndTotal, hlt, hr] at h
        · exact ih t' hr lp hm'

/-- If some line has insufficient stock the loop fails (with the name of the
first such product). -/
theorem checkStockAndTotal_error_of_insufficient
    (lines : List (CartItem × Product))
    (h : ∃ lp ∈ lines, lp.2.stock < (lp.1.quantity : Int)) :
    ∃ n, checkStockAndTotal lines = .error n := by
  rcases hr : checkStockAndTotal lines with e | t
  · exact ⟨e, rfl⟩
  · rcases h with ⟨lp, hm, hlt⟩
    exact absurd (le_stock_of_checkStockAndTotal_ok lines t hr lp hm) (not_le.2 hlt)

/-- What a successful cart join says: the joined lines project back to the
cart rows, and each carried product is the `findUnique` of its line. -/
theorem joinCart_spec (db : DB) :
    ∀ (cs : List CartItem) (lines : List (CartItem × Product)),
      joinCart db cs = some lines →
      lines.map Prod.fst = cs ∧
      ∀ lp ∈ lines, findProduct db lp.1.productId = some lp.2 := by
  intro cs
  induction cs with
  | nil =>
    intro lines h
    cases h
    exact ⟨rfl, fun lp hm => absurd hm (List.not_mem_nil _)⟩
  | cons c rest ih =>
    intro lines h
    rcases hp : findProduct db c.productId with _ | p
    · simp [joinCart, hp] at h
    · rcases hr : joinCart db rest with _ | ls
      · simp [joinCart, hp, hr] at h
      · rcases ih ls hr with ⟨hfst, hprod⟩
        simp only [joinCart, hp, hr, Option.some.injEq] at h
        subst h
        refine ⟨by simp [hfst], ?_⟩
        intro lp hm
        rcases List.mem_cons.1 hm with rfl | hm'
        · exact hp
        · exact hprod lp hm'

/-- The join succeeds on any cart row list whose products all exist. -/
theorem joinCart_isSome (db : DB) :
    ∀ cs : List CartItem,
      (∀ c ∈ cs, (findProduct db c.productId).isSome) →
      ∃ lines, joinCart db cs = some lines := by
  intro cs
  induction cs with
  | nil => intro _; exact ⟨[], rfl⟩
  | cons c rest ih =>
    intro h
    rcases hp : findProduct db c.productId with _ | p
    · have := h c (List.mem_cons_self _ _)
      simp [hp] at this
    · rcases ih (fun x hx => h x (List.mem_cons_of_mem _ hx)) with ⟨ls, hls⟩
      exact ⟨(c, p) :: ls, by simp [joinCart, hp, hls]⟩

/-- The transaction's per-line loop never touches the `orders` table. -/
theorem txLines_orders (oid : Nat) :
    ∀ (lines : List (CartItem × Product)) (db : DB),
      (txLines oid lines db).orders = db.orders
  | [], _ => rfl
  | (c, p) :: rest, db => txLines_orders oid rest _

/-- The transaction's per-line loop never touches the `cartItems` table. -/
theorem txLines_cartItems (oid : Nat) :
    ∀ (lines : List (CartItem × Product)) (db : DB),
      (txLines oid lines db).cartItems = db.cartItems
  | [], _ => rfl
  | (c, p) :: rest, db => txLines_cartItems oid rest _

/-- The transaction's per-line loop never touches the `users` table. -/
theorem txLines_users (oid : Nat) :
    ∀ (lines : List (CartItem × Product)) (db : DB),
      (txLines oid lines db).users = db.users
  | [], _ => rfl
  | (c, p) :: rest, db => txLines_users oid rest _

/-- The id generator only grows through the per-line loop. -/
theorem txLines_nextId_le (oid : Nat) :
    ∀ (lines : List (CartItem × Product)) (db : DB),
      db.nextId ≤ (txLines oid lines db).nextId
  | [], _ => le_refl _
  | (c, p) :: rest, db =>
    le_trans (Nat.le_succ db.nextId)
      (txLines_nextId_le oid rest
        { db with
          orderItems := db.orderItems ++
            [{ id := db.nextId, orderId := oid, productId := c.productId,
               quantity := c.quantity, price := p.price }],
          products := decStock db.products c.productId c.quantity,
          nextId := db.nextId + 1 })

/-- The per-line loop appends one `OrderItem` per cart line, in order, each
carrying the order's id and the line's product, quantity, and the price
snapshotted from the joined product row. -/
theorem txLines_orderItems (oid : Nat) :
    ∀ (lines : List (CartItem × Product)) (db : DB),
      ∃ L, (txLines oid lines db).orderItems = db.orderItems ++ L ∧
        List.Forall₂
          (fun (lp : CartItem × Product) (i : OrderItem) =>
            i.orderId = oid ∧ i.productId = lp.1.productId ∧
            i.quantity = lp.1.quantity ∧ i.price = lp.2.price)
          lines L
  | [], db => ⟨[], by simp [txLines], List.Forall₂.nil⟩
  | (c, p) :: rest, db => by
    rcases txLines_orderItems oid rest
      ({ db with
        orderItems := db.orderItems ++
          [{ id := db.nextId, orderId := oid, productId := c.productId,
             quantity := c.quantity, price := p.price }],
        products := decStock db.products c.productId c.quantity,
        nextId := db.nextId + 1 }) with ⟨L, hL, hF⟩
    refine ⟨{ id := db.nextId, orderId := oid, productId := c.productId,
              quantity := c.quantity, price := p.price } :: L, ?_, ?_⟩
    · simpa [List.append_assoc] using hL
    · exact List.Forall₂.cons ⟨rfl, rfl, rfl, rfl⟩ hF

/-- The per-line loop's effect on the `products` table: every product's stock
drops by the total quantity ordered for its id (and nothing else changes). -/
theorem txLines_products (oid : Nat) :
    ∀ (lines : List (CartItem × Product)) (db : DB),
      (txLines oid lines db).products =
        db.products.map (fun p => { p with stock := p.stock - orderedQty p.id lines }) := by
  intro lines
  induction lines with
  | nil =>
    intro db
    simp only [txLines, orderedQty, sub_zero]
    exact (List.map_id' _).symm
  | cons hd rest ih =>
    rcases hd with ⟨c, p⟩
    intro db
    rw [txLines, ih]
    show (decStock db.products c.productId c.quantity).map _ = _
    rw [decStock, List.map_map]
    refine List.map_congr_left ?_
    intro q _
    simp only [Function.comp_apply, beq_iff_eq]
    by_cases h : q.id = c.productId
    · rw [if_pos h]
      show ({ q with stock := q.stock - (c.quantity : Int) - orderedQty q.id rest } : Product) =
        { q with stock := q.stock - orderedQty q.id ((c, p) :: rest) }
      rw [orderedQty, if_pos h.symm, sub_sub]
    · rw [if_neg h]
      show ({ q with stock := q.stock - orderedQty q.id rest } : Product) =
        { q with stock := q.stock - orderedQty q.id ((c, p) :: rest) }
      rw [orderedQty, if_neg (fun hh => h hh.symm), zero_add]

/-- A product id that occurs on no cart line has total ordered quantity 0. -/
theorem orderedQty_eq_zero (pid : Nat) :
    ∀ lines : List (CartItem × Product),
      (∀ lp ∈ lines, lp.1.productId ≠ pid) → orderedQty pid lines = 0
  | [], _ => rfl
  | (c, p) :: rest, h => by
    rw [orderedQty, if_neg (h (c, p) (List.mem_cons_self _ _)),
      orderedQty_eq_zero pid rest (fun lp hm => h lp (List.mem_cons_of_mem _ hm)), zero_add]

/-- With pairwise-distinct product ids, the total ordered quantity for a
line's product is exactly that line's quantity. -/
theorem orderedQty_eq_of_nodup (pid : Nat) :
    ∀ (lines : List (CartItem × Product)) (lp : CartItem × Product),
      (lines.map (fun x => x.1.productId)).Nodup →
      lp ∈ lines → lp.1.productId = pid →
      orderedQty pid lines = (lp.1.quantity : Int) := by
  intro lines
  induction lines with
  | nil => intro lp _ hm; cases hm
  | cons hd rest ih =>
    rcases hd with ⟨c, p⟩
    intro lp hnd hm hpid
    simp only [List.map_cons, List.nodup_cons] at hnd
    rcases List.mem_cons.1 hm with rfl | hm'
    · rw [orderedQty, if_pos hpid,
        orderedQty_eq_zero pid rest ?_, add_zero]
      intro x hx hxpid
      exact hnd.1 (hpid ▸ hxpid ▸ List.mem_map_of_mem (fun y => y.1.productId) hx)
    · rw [orderedQty, if_neg ?_, ih lp hnd.2 hm' hpid, zero_add]
      intro hc
      have hmm : lp.1.productId ∈ rest.map (fun y => y.1.productId) :=
        List.mem_map_of_mem (fun y => y.1.productId) hm'
      rw [hpid, ← hc] at hmm
      exact hnd.1 hmm

/-- `find?` by id commutes with mapping an id-preserving function. -/
theorem find?_map_of_id_eq (g : Product → Product) (hg : ∀ p, (g p).id = p.id) (pid : Nat) :
    ∀ ps : List Product,
      (ps.map g).find? (fun p => p.id == pid) = (ps.find? (fun p => p.id == pid)).map g
  | [] => rfl
  | p :: rest => by
    by_cases h : p.id = pid
    · have h1 : ((g p).id == pid) = true := by simp [hg, h]
      have h2 : (p.id == pid) = true := by simp [h]
      simp [List.find?_cons, h1, h2]
    · have h1 : ((g p).id == pid) = false := by simp [hg, h]
      have h2 : (p.id == pid) = false := by simp [h]
      simp [List.find?_cons, h1, h2, find?_map_of_id_eq g hg pid rest]

/-- With pairwise-distinct ids, `find?` by a member's id returns that
member. -/
theorem find?_eq_self_of_nodup_ids :
    ∀ (ps : List Product) (p : Product),
      (ps.map (fun q => q.id)).Nodup → p ∈ ps →
      ps.find? (fun q => q.id == p.id) = some p := by
  intro ps
  induction ps with
  | nil => intro p _ hm; cases hm
  | cons q rest ih =>
    intro p hnd hm
    simp only [List.map_cons, List.nodup_cons] at hnd
    rcases List.mem_cons.1 hm with rfl | hm'
    · simp [List.find?_cons]
    · have hne : (q.id == p.id) = false := by
        have : q.id ≠ p.id := fun h =>
          hnd.1 (h ▸ List.mem_map_of_mem (fun y => y.id) hm')
        simp [this]
      simp [List.find?_cons, hne, ih p hnd.2 hm']

/-- Membership on the right of a `Forall₂`. -/
theorem forall₂_exists_left {α β : Type} {R : α → β → Prop} :
    ∀ {l : List α} {L : List β}, List.Forall₂ R l L → ∀ b ∈ L, ∃ a ∈ l, R a b := by
  intro l L h
  induction h with
  | nil => intro b hb; cases hb
  | cons hr _ ih =>
    intro b hb
    rcases List.mem_cons.1 hb with rfl | hb'
    · exact ⟨_, List.mem_cons_self _ _, hr⟩
    · rcases ih b hb' with ⟨a, ha, hra⟩
      exact ⟨a, List.mem_cons_of_mem _ ha, hra⟩

/-- What the whole order transaction does to each table. -/
theorem orderTransaction_spec (db : DB) (uid : Nat) (lines : List (CartItem × Product))
    (total : ℚ) :
    (orderTransaction db uid lines total).1 =
      { id := db.nextId, userId := uid, total := total, status := "PENDING" } ∧
    ∃ L,
      (orderTransaction db uid lines total).2.orders =
        db.orders ++ [{ id := db.nextId, userId := uid, total := total, status := "PENDING" }] ∧
      (orderTransaction db uid lines total).2.orderItems = db.orderItems ++ L ∧
      List.Forall₂
        (fun (lp : CartItem × Product) (i : OrderItem) =>
          i.orderId = db.nextId ∧ i.productId = lp.1.productId ∧
          i.quantity = lp.1.quantity ∧ i.price = lp.2.price)
        lines L ∧
      (orderTransaction db uid lines total).2.products =
        db.products.map (fun p => { p with stock := p.stock - orderedQty p.id lines }) ∧
      (orderTransaction db uid lines total).2.cartItems =
        db.cartItems.filter (fun c => c.userId != uid) := by
  rcases txLines_orderItems db.nextId lines
    { db with
      orders := db.orders ++ [{ id := db.nextId, userId := uid, total := total, status := "PENDING" }],
      nextId := db.nextId + 1 }
    with ⟨L, hL, hF⟩
  refine ⟨rfl, L, ?_, ?_, hF, ?_, ?_⟩
  · show (txLines db.nextId lines _).orders = _
    rw [txLines_orders]
  · show (txLines db.nextId lines _).orderItems = _
    rw [hL]
  · show (txLines db.nextId lines _).products = _
    rw [txLines_products]
  · show (txLines db.nextId lines _).cartItems.filter _ = _
    rw [txLines_cartItems]

/-- **C1.** For every authenticated user whose cart is non-empty and where
every cart line satisfies `product.stock >= item.quantity`, `POST /api/orders`
creates one Order with status PENDING whose total equals the sum over cart
lines of `product.price * quantity`, creates one OrderItem per cart line with
price copied from the current product price, decrements each ordered
product's stock by exactly the ordered quantity, deletes all of that user's
cart items, and responds 201 with the created order.  (`hnodup` and `hfresh`
are database well-formedness: the schema's `(userId, productId)` uniqueness
and the freshness of generated ids.) -/
theorem createOrder_success (db : DB) (uid : Nat) (lines : List (CartItem × Product))
    (hfetch : fetchCart db uid = some lines)
    (hne : lines ≠ [])
    (hstock : ∀ lp ∈ lines, (lp.1.quantity : Int) ≤ lp.2.stock)
    (hnodup : (lines.map (fun lp => lp.1.productId)).Nodup)
    (hfresh : ∀ i ∈ db.orderItems, i.orderId ≠ db.nextId) :
    ∃ (o : Order) (db' : DB) (L : List OrderItem),
      createOrder db uid = (OrderResp.created o L, db') ∧
      o.status = "PENDING" ∧ o.userId = uid ∧ o.total = linesTotal lines ∧
      db'.orders = db.orders ++ [o] ∧
      db'.orderItems = db.orderItems ++ L ∧
      List.Forall₂
        (fun (lp : CartItem × Product) (i : OrderItem) =>
          i.orderId = o.id ∧ i.productId = lp.1.productId ∧
          i.quantity = lp.1.quantity ∧ i.price = lp.2.price)
        lines L ∧
      (∀ lp ∈ lines, findProduct db' lp.1.productId =
        some { lp.2 with stock := lp.2.stock - (lp.1.quantity : Int) }) ∧
      db'.cartItems = db.cartItems.filter (fun c => c.userId != uid) := by
  have hck := checkStockAndTotal_ok_of_le lines hstock
  have hjoin := joinCart_spec db (db.cartItems.filter (fun c => c.userId == uid)) lines hfetch
  have hne' : lines.isEmpty = false := by
    cases lines with
    | nil => exact absurd rfl hne
    | cons a l => rfl
  rcases orderTransaction_spec db uid lines (linesTotal lines) with ⟨ho, L, hOrd, hOI, hF, hP, hC⟩
  refine ⟨(orderTransaction db uid lines (linesTotal lines)).1,
    (orderTransaction db uid lines (linesTotal lines)).2, L, ?_, ?_, ?_, ?_, ?_, hOI, ?_, ?_, hC⟩
  · show createOrder db uid = _
    rw [createOrder, hfetch]
    simp only [hne', Bool.false_eq_true, if_false, hck]
    have hfilter :
        (orderTransaction db uid lines (linesTotal lines)).2.orderItems.filter
          (fun i => i.orderId == (orderTransaction db uid lines (linesTotal lines)).1.id) = L := by
      rw [hOI, List.filter_append]
      have h1 : db.orderItems.filter
          (fun i => i.orderId == (orderTransaction db uid lines (linesTotal lines)).1.id) = [] := by
        rw [List.filter_eq_nil_iff]
        intro i hi
        have : i.orderId ≠ db.nextId := hfresh i hi
        simp [ho, this]
      have h2 : L.filter
          (fun i => i.orderId == (orderTransaction db uid lines (linesTotal lines)).1.id) = L := by
        rw [List.filter_eq_self]
        intro i hi
        rcases forall₂_exists_left hF i hi with ⟨lp, _, hrel⟩
        simp [ho, hrel.1]
      rw [h1, h2, List.nil_append]
    rw [← hfilter]
  · rw [ho]
  · rw [ho]
  · rw [ho]
  · rw [ho]
    exact hOrd
  · rw [ho]
    exact hF
  · intro lp hm
    have hfp : findProduct db lp.1.productId = some lp.2 := hjoin.2 lp hm
    have hid : lp.2.id = lp.1.productId := by
      have := List.find?_some hfp
      exact beq_iff_eq.1 this
    have hq : orderedQty lp.2.id lines = (lp.1.quantity : Int) :=
      orderedQty_eq_of_nodup lp.2.id lines lp hnodup hm hid.symm
    rw [findProduct, hP,
      find?_map_of_id_eq (fun p => { p with stock := p.stock - orderedQty p.id lines })
        (fun p => rfl) lp.1.productId db.products]
    rw [findProduct] at hfp
    rw [hfp, Option.map_some']
    congr 1
    show ({ lp.2 with stock := lp.2.stock - orderedQty lp.2.id lines } : Product) =
      { lp.2 with stock := lp.2.stock - (lp.1.quantity : Int) }
    rw [hq]

/-- Witness for the order-placement success theorem at a concrete database:
user 1 orders 2 units of product 10 (price 10, stock 5). -/
theorem createOrder_success_witness :
    ∃ (o : Order) (db' : DB) (L : List OrderItem),
      createOrder dbMain 1 = (OrderResp.created o L, db') ∧
      o.status = "PENDING" ∧ o.userId = 1 ∧ o.total = linesTotal [(cartLine2, prodA)] ∧
      db'.orders = dbMain.orders ++ [o] ∧
      db'.orderItems = dbMain.orderItems ++ L ∧
      List.Forall₂
        (fun (lp : CartItem × Product) (i : OrderItem) =>
          i.orderId = o.id ∧ i.productId = lp.1.productId ∧
          i.quantity = lp.1.quantity ∧ i.price = lp.2.price)
        [(cartLine2, prodA)] L ∧
      (∀ lp ∈ [(cartLine2, prodA)], findProduct db' lp.1.productId =
        some { lp.2 with stock := lp.2.stock - (lp.1.quantity : Int) }) ∧
      db'.cartItems = dbMain.cartItems.filter (fun c => c.userId != 1) :=
  createOrder_success dbMain 1 [(cartLine2, prodA)]
    (by decide) (by decide) (by decide) (by decide) (by decide)

/-- **C2.** For every order-placement request where at least one cart line has
`item.quantity > product.stock`, `POST /api/orders` responds 400 and performs
no writes at all: the database state (orders, order items, product stocks,
cart items) is returned unchanged. -/
theorem createOrder_insufficient_stock (db : DB) (uid : Nat)
    (lines : List (CartItem × Product))
    (hfetch : fetchCart db uid = some lines)
    (hbad : ∃ lp ∈ lines, lp.2.stock < (lp.1.quantity : Int)) :
    ∃ n, createOrder db uid = (OrderResp.badRequest ("Insufficient stock for " ++ n), db) := by
  rcases checkStockAndTotal_error_of_insufficient lines hbad with ⟨n, hn⟩
  have hne' : lines.isEmpty = false := by
    rcases hbad with ⟨lp, hm, _⟩
    cases lines with
    | nil => cases hm
    | cons a l => rfl
  refine ⟨n, ?_⟩
  rw [createOrder, hfetch]
  simp only [hne', Bool.false_eq_true, if_false, hn]

/-- Witness for the insufficient-stock theorem: user 1 asks for 9 units of
product 10, which has stock 5; nothing changes. -/
theorem createOrder_insufficient_stock_witness :
    ∃ n, createOrder dbIns 1 = (OrderResp.badRequest ("Insufficient stock for " ++ n), dbIns) :=
  createOrder_insufficient_stock dbIns 1 [(cartLine9, prodA)] (by decide) (by decide)

/-- **C4.** For every authenticated user whose cart contains no items,
`POST /api/orders` responds 400 with error `Cart is empty` and leaves the
whole database state unchanged (no Order, OrderItem, or any other row is
created). -/
theorem createOrder_empty_cart (db : DB) (uid : Nat)
    (h : db.cartItems.filter (fun c => c.userId == uid) = []) :
    createOrder db uid = (OrderResp.badRequest "Cart is empty", db) := by
  rw [createOrder, fetchCart, h]
  rfl

/-- Witness for the empty-cart theorem: user 1's cart in [dbNoCart] is
empty. -/
theorem createOrder_empty_cart_witness :
    createOrder dbNoCart 1 = (OrderResp.badRequest "Cart is empty", dbNoCart) :=
  createOrder_empty_cart dbNoCart 1 (by decide)

/-- `find?` skips a prefix on which it fails. -/
theorem find?_append_none {α : Type} (p : α → Bool) :
    ∀ {l1 : List α} (l2 : List α), l1.find? p = none → (l1 ++ l2).find? p = l2.find? p := by
  intro l1
  induction l1 with
  | nil => intro l2 _; rfl
  | cons a l ih =>
    intro l2 h
    cases hpa : p a with
    | true =>
      rw [List.find?_cons_of_pos _ hpa] at h
      cases h
    | false =>
      rw [List.find?_cons_of_neg _ (by simp [hpa])] at h
      rw [List.cons_append, List.find?_cons_of_neg _ (by simp [hpa])]
      exact ih l2 h

/-- The one cart row a `POST /api/cart` create-branch inserts. -/
def newCartRow (db : DB) (uid pid qty : Nat) : CartItem :=
  { id := db.nextId, userId := uid, productId := pid, quantity := qty }

/-- Two back-to-back `POST /api/cart` calls for the same `(user, product)`
pair, starting from a cart with no line for that pair: the first call creates
one line, the second merges into it, and afterwards the cart holds the
original rows plus exactly one line for the pair carrying the summed
quantity. -/
theorem addToCart_twice (db : DB) (uid pid q1 q2 : Nat) (p : Product)
    (hp : findProduct db pid = some p)
    (h1 : (q1 : Int) ≤ p.stock) (h2 : (q2 : Int) ≤ p.stock)
    (hnone : db.cartItems.find? (fun c => c.userId == uid && c.productId == pid) = none)
    (hfresh : ∀ c ∈ db.cartItems, c.id ≠ db.nextId) :
    (addToCart db uid pid q1).1 = CartResp.created (newCartRow db uid pid q1) ∧
    (addToCart (addToCart db uid pid q1).2 uid pid q2).1 =
      CartResp.created (newCartRow db uid pid (q1 + q2)) ∧
    (addToCart (addToCart db uid pid q1).2 uid pid q2).2.cartItems =
      db.cartItems ++ [newCartRow db uid pid (q1 + q2)] := by
  have e1 : addToCart db uid pid q1 =
      (CartResp.created (newCartRow db uid pid q1),
        { db with
          cartItems := db.cartItems ++ [newCartRow db uid pid q1],
          nextId := db.nextId + 1 }) := by
    simp only [addToCart, hp, hnone]
    rw [if_neg (not_lt.2 h1)]
    rfl
  rw [e1]
  have hp1 : findProduct
      { db with
        cartItems := db.cartItems ++ [newCartRow db uid pid q1],
        nextId := db.nextId + 1 } pid = some p := hp
  have hfind1 : (db.cartItems ++ [newCartRow db uid pid q1]).find?
        (fun c => c.userId == uid && c.productId == pid) =
      some (newCartRow db uid pid q1) := by
    rw [find?_append_none _ _ hnone]
    exact List.find?_cons_of_pos
      (p := fun c : CartItem => c.userId == uid && c.productId == pid) _ (by simp [newCartRow])
  have e2 : addToCart
      { db with
        cartItems := db.cartItems ++ [newCartRow db uid pid q1],
        nextId := db.nextId + 1 } uid pid q2 =
      (CartResp.created (newCartRow db uid pid (q1 + q2)),
        { db with
          cartItems := (db.cartItems ++ [newCartRow db uid pid q1]).map
            (fun c => if c.id == (newCartRow db uid pid q1).id
              then newCartRow db uid pid (q1 + q2) else c),
          nextId := db.nextId + 1 }) := by
    simp only [addToCart, hp1, hfind1]
    rw [if_neg (not_lt.2 h2)]
    rfl
  rw [e2]
  refine ⟨rfl, rfl, ?_⟩
  show ((db.cartItems ++ [newCartRow db uid pid q1]).map
    (fun c => if c.id == (newCartRow db uid pid q1).id
      then newCartRow db uid pid (q1 + q2) else c) : List CartItem) = _
  rw [List.map_append]
  have hold : db.cartItems.map
      (fun c => if c.id == (newCartRow db uid pid q1).id
        then newCartRow db uid pid (q1 + q2) else c) = db.cartItems := by
    conv_rhs => rw [← List.map_id db.cartItems]
    refine List.map_congr_left ?_
    intro c hc
    have : (c.id == (newCartRow db uid pid q1).id) = false := by
      simp [newCartRow, hfresh c hc]
    simp [this]
  rw [hold]
  have : ([newCartRow db uid pid q1].map
      (fun c => if c.id == (newCartRow db uid pid q1).id
        then newCartRow db uid pid (q1 + q2) else c) : List CartItem) =
      [newCartRow db uid pid (q1 + q2)] := by
    simp
  rw [this]

/-- If `find?` for a cart key fails, `filter` for it is empty. -/
theorem cart_filter_nil_of_find?_none (l : List CartItem) (uid pid : Nat)
    (h : l.find? (fun c => c.userId == uid && c.productId == pid) = none) :
    l.filter (fun c => c.userId == uid && c.productId == pid) = [] := by
  rw [List.filter_eq_nil_iff]
  intro c hc
  simpa using List.find?_eq_none.1 h c hc

/-- The `POST /api/cart` stock check answers 400 `Insufficient stock` exactly
when the product exists and its stock is below the newly requested quantity
(the quantity already in the cart plays no role). -/
theorem addToCart_insufficient_iff (db : DB) (uid pid qty : Nat) :
    (addToCart db uid pid qty).1 = CartResp.badRequest "Insufficient stock" ↔
      ∃ p, findProduct db pid = some p ∧ p.stock < (qty : Int) := by
  rcases hp : findProduct db pid with _ | p
  · simp only [addToCart, hp]
    constructor
    · intro h; simp at h
    · rintro ⟨p0, hp0, -⟩; simp at hp0
  · simp only [addToCart, hp]
    by_cases hlt : p.stock < (qty : Int)
    · rw [if_pos hlt]
      constructor
      · intro _; exact ⟨p, rfl, hlt⟩
      · intro _; rfl
    · rw [if_neg hlt]
      constructor
      · intro h
        rcases hf : db.cartItems.find? (fun c => c.userId == uid && c.productId == pid)
          with _ | ex
        · rw [hf] at h; simp at h
        · rw [hf] at h; simp at h
      · rintro ⟨p0, hp0, hlt0⟩
        injection hp0 with h0
        subst h0
        exact absurd hlt0 hlt

/-- **C5.** For every user and product, adding the same product to the cart
twice via `POST /api/cart` (each call passing its checks, i.e. the product
exists with stock at least each requested quantity, and starting from a cart
with no line for the pair) results in exactly one CartItem row for that
`(user, product)` pair whose quantity is the sum of the two requested
quantities, never two rows.  (`hfresh` is freshness of generated row ids.) -/
theorem addToCart_same_product_twice_merges (db : DB) (uid pid q1 q2 : Nat) (p : Product)
    (hp : findProduct db pid = some p)
    (h1 : (q1 : Int) ≤ p.stock) (h2 : (q2 : Int) ≤ p.stock)
    (hnone : db.cartItems.find? (fun c => c.userId == uid && c.productId == pid) = none)
    (hfresh : ∀ c ∈ db.cartItems, c.id ≠ db.nextId) :
    ∃ c : CartItem,
      (addToCart (addToCart db uid pid q1).2 uid pid q2).2.cartItems.filter
        (fun x => x.userId == uid && x.productId == pid) = [c] ∧
      c.quantity = q1 + q2 := by
  rcases addToCart_twice db uid pid q1 q2 p hp h1 h2 hnone hfresh with ⟨-, -, hcart⟩
  refine ⟨newCartRow db uid pid (q1 + q2), ?_, rfl⟩
  rw [hcart, List.filter_append, cart_filter_nil_of_find?_none db.cartItems uid pid hnone]
  simp [newCartRow]

/-- Witness for the cart-merge theorem: user 1 adds product 10 with quantity
2 and then quantity 3; one line with quantity 5 results. -/
theorem addToCart_same_product_twice_merges_witness :
    ∃ c : CartItem,
      (addToCart (addToCart dbNoCart 1 10 2).2 1 10 3).2.cartItems.filter
        (fun x => x.userId == 1 && x.productId == 10) = [c] ∧
      c.quantity = 2 + 3 :=
  addToCart_same_product_twice_merges dbNoCart 1 10 2 3 prodA
    (by decide) (by decide) (by decide) (by decide) (by decide)

/-- **C9.** `POST /api/cart` responds 400 `Insufficient stock` if and only if
the product exists and `product.stock` is below the newly requested quantity;
the quantity already present in the user's cart line for that product is not
counted, so after two accepted adds of quantity `q` each (with
`q ≤ stock < 2q`) the single cart line's quantity exceeds the product's
stock. -/
theorem cart_stock_check_ignores_cart_quantity (db : DB) (uid pid q : Nat) (p : Product)
    (hp : findProduct db pid = some p)
    (hq : (q : Int) ≤ p.stock) (h2q : p.stock < 2 * (q : Int))
    (hnone : db.cartItems.find? (fun c => c.userId == uid && c.productId == pid) = none)
    (hfresh : ∀ c ∈ db.cartItems, c.id ≠ db.nextId) :
    (∀ (db0 : DB) (uid0 pid0 qty0 : Nat),
      (addToCart db0 uid0 pid0 qty0).1 = CartResp.badRequest "Insufficient stock" ↔
        ∃ p0, findProduct db0 pid0 = some p0 ∧ p0.stock < (qty0 : Int)) ∧
    (addToCart db uid pid q).1 = CartResp.created (newCartRow db uid pid q) ∧
    (addToCart (addToCart db uid pid q).2 uid pid q).1 =
      CartResp.created (newCartRow db uid pid (q + q)) ∧
    (addToCart (addToCart db uid pid q).2 uid pid q).2.cartItems.filter
      (fun x => x.userId == uid && x.productId == pid) = [newCartRow db uid pid (q + q)] ∧
    p.stock < ((q + q : Nat) : Int) := by
  rcases addToCart_twice db uid pid q q p hp hq hq hnone hfresh with ⟨ha, hb, hcart⟩
  refine ⟨fun db0 uid0 pid0 qty0 => addToCart_insufficient_iff db0 uid0 pid0 qty0,
    ha, hb, ?_, ?_⟩
  · rw [hcart, List.filter_append, cart_filter_nil_of_find?_none db.cartItems uid pid hnone]
    simp [newCartRow]
  · push_cast
    linarith

/-- Witness for the stock-check theorem: product 10 has stock 5 and user 1
adds quantity 3 twice (3 ≤ 5 < 6); the merged line holds 6 > 5. -/
theorem cart_stock_check_ignores_cart_quantity_witness :
    (∀ (db0 : DB) (uid0 pid0 qty0 : Nat),
      (addToCart db0 uid0 pid0 qty0).1 = CartResp.badRequest "Insufficient stock" ↔
        ∃ p0, findProduct db0 pid0 = some p0 ∧ p0.stock < (qty0 : Int)) ∧
    (addToCart dbNoCart 1 10 3).1 = CartResp.created (newCartRow dbNoCart 1 10 3) ∧
    (addToCart (addToCart dbNoCart 1 10 3).2 1 10 3).1 =
      CartResp.created (newCartRow dbNoCart 1 10 (3 + 3)) ∧
    (addToCart (addToCart dbNoCart 1 10 3).2 1 10 3).2.cartItems.filter
      (fun x => x.userId == 1 && x.productId == 10) = [newCartRow dbNoCart 1 10 (3 + 3)] ∧
    prodA.stock < ((3 + 3 : Nat) : Int) :=
  cart_stock_check_ignores_cart_quantity dbNoCart 1 10 3 prodA
    (by decide) (by decide) (by decide) (by decide) (by decide)

/-- **C6.** `OrderItem.price` is a snapshot taken at order-creation time: a
later `PUT /api/products/:id` never touches the `orderItems` or `orders`
tables, so every existing `OrderItem.price` and every existing `Order.total`
is left unchanged by a product (price) update. -/
theorem updateProduct_price_snapshot_frame (db : DB) (u : User) (pid : Nat)
    (b : ProductUpdateBody) :
    (updateProduct db u pid b).2.orderItems = db.orderItems ∧
    (updateProduct db u pid b).2.orders = db.orders := by
  unfold updateProduct
  split
  · exact ⟨rfl, rfl⟩
  · split
    · exact ⟨rfl, rfl⟩
    · exact ⟨rfl, rfl⟩

/-- **C7.** For every authenticated user whose role is not `ADMIN`,
`PUT /api/products/:id` responds 403 with `Access denied. Admin only.` and
the whole database state (in particular the targeted product) is returned
unchanged. -/
theorem updateProduct_forbidden_for_non_admin (db : DB) (u : User) (pid : Nat)
    (b : ProductUpdateBody) (h : u.role ≠ "ADMIN") :
    updateProduct db u pid b = (ProductResp.forbidden "Access denied. Admin only.", db) := by
  rw [updateProduct, if_pos h]

/-- Witness for the 403 theorem: plain user 1 attempts a product update. -/
theorem updateProduct_forbidden_for_non_admin_witness :
    updateProduct dbMain userU 10 {} =
      (ProductResp.forbidden "Access denied. Admin only.", dbMain) :=
  updateProduct_forbidden_for_non_admin dbMain userU 10 {} (by decide)

/-- **C8.** `GET /api/orders/:id` is scoped to the requesting user: an order
is returned only when an order with the requested id exists and belongs to
the requester, and whenever no order with that id belongs to the requester —
be it because the id does not exist or because the order belongs to someone
else — the response is the same `Order not found` 404 value. -/
theorem getOrderById_scoped_to_user (db : DB) (uid oid : Nat) :
    (∀ o items, getOrderById db uid oid = OrderGetResp.ok o items →
      o ∈ db.orders ∧ o.id = oid ∧ o.userId = uid) ∧
    ((∀ o ∈ db.orders, ¬(o.id = oid ∧ o.userId = uid)) →
      getOrderById db uid oid = OrderGetResp.notFound) := by
  constructor
  · intro o items h
    rcases hf : db.orders.find? (fun o => o.id == oid && o.userId == uid) with _ | o'
    · rw [getOrderById, hf] at h
      cases h
    · rw [getOrderById, hf] at h
      cases h
      have hmem := List.mem_of_find?_eq_some hf
      have hprop := List.find?_some hf
      simp only [Bool.and_eq_true, beq_iff_eq] at hprop
      exact ⟨hmem, hprop.1, hprop.2⟩
  · intro hall
    rw [getOrderById]
    rcases hf : db.orders.find? (fun o => o.id == oid && o.userId == uid) with _ | o'
    · rw [hf]
    · exfalso
      have hmem := List.mem_of_find?_eq_some hf
      have hprop := List.find?_some hf
      simp only [Bool.and_eq_true, beq_iff_eq] at hprop
      exact hall o' hmem ⟨hprop.1, hprop.2⟩

/-- Witness for the order-scoping theorem: order 50 belongs to user 2, so
user 1 asking for it gets the same 404 as for a nonexistent id. -/
theorem getOrderById_scoped_to_user_witness :
    getOrderById dbOrder2 1 50 = OrderGetResp.notFound :=
  (getOrderById_scoped_to_user dbOrder2 1 50).2 (by decide)

/-- **C10.** `POST /api/users/become-seller` responds 400
`User is already a seller` exactly when the authenticated user's role is the
string `SELLER` (leaving everything unchanged); for every other role —
including `ADMIN` — it overwrites the user's role with `SELLER`, so an admin
who calls it is downgraded to seller.  (`hu` ties the middleware's
`req.user` to the user's row.) -/
theorem becomeSeller_spec (db : DB) (u : User)
    (hu : db.users.find? (fun v => v.id == u.id) = some u) :
    (u.role = "SELLER" →
      becomeSeller db u = (SellerResp.badRequest "User is already a seller", db)) ∧
    (u.role ≠ "SELLER" →
      becomeSeller db u =
        (SellerResp.ok { u with role := "SELLER" },
          { db with users :=
              (db.users.map (fun w => if w.id == u.id then { u with role := "SELLER" } else w)) })) := by
  constructor
  · intro h
    rw [becomeSeller, if_pos h]
  · intro h
    rw [becomeSeller, if_neg h, hu]

/-- Witness for the become-seller theorem: the admin (user 2) calls the route
and ends up with role `SELLER`. -/
theorem becomeSeller_spec_witness :
    becomeSeller dbMain adminA =
      (SellerResp.ok { adminA with role := "SELLER" },
        { dbMain with users :=
            (dbMain.users.map
              (fun w => if w.id == adminA.id then { adminA with role := "SELLER" } else w)) }) :=
  (becomeSeller_spec dbMain adminA (by decide)).2 (by decide)

/-- Replacing, in a cart list with unique ids, the row with a member's id by
a row that agrees on a projection `g` does not change the list of `g`
values. -/
theorem map_proj_replace_eq {β : Type} (l : List CartItem) (c r : CartItem)
    (hc : c ∈ l) (hids : (l.map (fun x => x.id)).Nodup)
    (g : CartItem → β) (hg : g r = g c) :
    (l.map (fun x => if x.id == c.id then r else x)).map g = l.map g := by
  rw [List.map_map]
  refine List.map_congr_left ?_
  intro x hx
  simp only [Function.comp_apply, beq_iff_eq]
  by_cases h : x.id = c.id
  · have hxc : x = c := List.inj_on_of_nodup_map hids hx hc h
    rw [if_pos h, hg, hxc]
  · rw [if_neg h]

/-- The id generator only grows through the whole order transaction. -/
theorem orderTransaction_nextId_le (db : DB) (uid : Nat)
    (lines : List (CartItem × Product)) (total : ℚ) :
    db.nextId ≤ (orderTransaction db uid lines total).2.nextId := by
  show db.nextId ≤ (txLines db.nextId lines
    { db with
      orders := db.orders ++ [{ id := db.nextId, userId := uid, total := total, status := "PENDING" }],
      nextId := db.nextId + 1 }).nextId
  exact le_trans (Nat.le_succ db.nextId)
    (txLines_nextId_le db.nextId lines
      { db with
        orders := db.orders ++ [{ id := db.nextId, userId := uid, total := total, status := "PENDING" }],
        nextId := db.nextId + 1 })

/-- A fetched cart has pairwise-distinct product ids, because the schema's
`(userId, productId)` key is unique and all fetched rows share the user. -/
theorem lines_pids_nodup (db : DB) (uid : Nat) (lines : List (CartItem × Product))
    (hfetch : fetchCart db uid = some lines)
    (hkeys : (db.cartItems.map (fun c => (c.userId, c.productId))).Nodup) :
    (lines.map (fun lp => lp.1.productId)).Nodup := by
  have hfst := (joinCart_spec db _ lines hfetch).1
  have heq : lines.map (fun lp => lp.1.productId) =
      (db.cartItems.filter (fun c => c.userId == uid)).map (fun c => c.productId) := by
    rw [← hfst, List.map_map]
    rfl
  rw [heq]
  have hkf : ((db.cartItems.filter (fun c => c.userId == uid)).map
      (fun c => (c.userId, c.productId))).Nodup :=
    hkeys.sublist ((List.filter_sublist _).map _)
  have hsplit : (db.cartItems.filter (fun c => c.userId == uid)).map (fun c => c.productId) =
      ((db.cartItems.filter (fun c => c.userId == uid)).map
        (fun c => (c.userId, c.productId))).map Prod.snd := by
    rw [List.map_map]
    rfl
  rw [hsplit]
  refine hkf.map_on ?_
  intro x hx y hy hxy
  rcases List.mem_map.1 hx with ⟨c, hc, rfl⟩
  rcases List.mem_map.1 hy with ⟨d, hd, rfl⟩
  have hcu : c.userId = uid := by simpa using (List.mem_filter.1 hc).2
  have hdu : d.userId = uid := by simpa using (List.mem_filter.1 hd).2
  exact Prod.ext (by rw [hcu, hdu]) hxy

/-- [DbInv] transfers along a state change that keeps products and cart rows
and only grows the id generator. -/
theorem dbInv_of_frame {db db' : DB}
    (hp : db'.products = db.products) (hc : db'.cartItems = db.cartItems)
    (hn : db.nextId ≤ db'.nextId) (h : DbInv db) : DbInv db' := by
  obtain ⟨h1, ⟨k1, k2, k3⟩, ⟨m1, m2⟩⟩ := h
  refine ⟨fun p hm => h1 p (by rwa [hp] at hm),
    ⟨by rw [hc]; exact k1, by rw [hc]; exact k2,
     fun c hm => lt_of_lt_of_le (k3 c (by rwa [hc] at hm)) hn⟩,
    ⟨by rw [hp]; exact m1,
     fun p hm => lt_of_lt_of_le (m2 p (by rwa [hp] at hm)) hn⟩⟩

/-- `POST /api/users/become-seller` preserves [DbInv]. -/
theorem dbInv_becomeSeller (db : DB) (u : User) (h : DbInv db) :
    DbInv (becomeSeller db u).2 := by
  unfold becomeSeller
  split
  · exact h
  · rcases hf : db.users.find? (fun v => v.id == u.id) with _ | v
    · rw [hf]; exact h
    · rw [hf]; exact h

/-- `POST /api/wishlist` preserves [DbInv]. -/
theorem dbInv_addToWishlist (db : DB) (uid pid : Nat) (h : DbInv db) :
    DbInv (addToWishlist db uid pid).2 := by
  unfold addToWishlist
  rcases hp : findProduct db pid with _ | p
  · try rw [hp]
    exact h
  · try rw [hp]
    rcases hf : db.wishlistItems.find? (fun w => w.userId == uid && w.productId == pid)
      with _ | w
    · try rw [hf]
      refine dbInv_of_frame ?_ ?_ ?_ h
      · rfl
      · rfl
      · exact Nat.le_succ db.nextId
    · try rw [hf]
      exact h

/-- `DELETE /api/wishlist/:productId` preserves [DbInv]. -/
theorem dbInv_deleteWishlistItem (db : DB) (uid pid : Nat) (h : DbInv db) :
    DbInv (deleteWishlistItem db uid pid).2 := by
  unfold deleteWishlistItem
  split
  · exact h
  · exact h

/-- `DELETE /api/cart/:id` preserves [DbInv]. -/
theorem dbInv_deleteCartItem (db : DB) (uid cid : Nat) (h : DbInv db) :
    DbInv (deleteCartItem db uid cid).2 := by
  unfold deleteCartItem
  split
  · obtain ⟨h1, ⟨k1, k2, k3⟩, hm⟩ := h
    refine ⟨h1, ⟨?_, ?_, ?_⟩, hm⟩
    · exact k1.sublist ((List.filter_sublist _).map _)
    · exact k2.sublist ((List.filter_sublist _).map _)
    · intro c hc
      exact k3 c (List.mem_of_mem_filter hc)
  · exact h

/-- `PUT /api/cart/:id` preserves [DbInv]. -/
theorem dbInv_updateCartItem (db : DB) (uid cid qty : Nat) (h : DbInv db) :
    DbInv (updateCartItem db uid cid qty).2 := by
  unfold updateCartItem
  rcases hf : db.cartItems.find? (fun c => c.id == cid && c.userId == uid) with _ | c
  · rw [hf]; exact h
  · rw [hf]
    obtain ⟨h1, ⟨k1, k2, k3⟩, hm⟩ := h
    have hc : c ∈ db.cartItems := List.mem_of_find?_eq_some hf
    refine ⟨h1, ⟨?_, ?_, ?_⟩, hm⟩
    · show ((db.cartItems.map (fun x => if x.id == c.id then { c with quantity := qty } else x)).map
        (fun x => (x.userId, x.productId))).Nodup
      rw [map_proj_replace_eq db.cartItems c { c with quantity := qty } hc k2
        (fun x => (x.userId, x.productId)) rfl]
      exact k1
    · show ((db.cartItems.map (fun x => if x.id == c.id then { c with quantity := qty } else x)).map
        (fun x => x.id)).Nodup
      rw [map_proj_replace_eq db.cartItems c { c with quantity := qty } hc k2
        (fun x => x.id) rfl]
      exact k2
    · intro x hx
      rcases List.mem_map.1 hx with ⟨y, hy, rfl⟩
      by_cases hid : y.id = c.id
      · simp only [beq_iff_eq, if_pos hid]
        exact k3 c hc
      · simp only [beq_iff_eq, if_neg hid]
        exact k3 y hy

/-- `POST /api/cart` preserves [DbInv]. -/
theorem dbInv_addToCart (db : DB) (uid pid qty : Nat) (h : DbInv db) :
    DbInv (addToCart db uid pid qty).2 := by
  unfold addToCart
  split
  · exact h
  · split
    · exact h
    · split
      · rename_i hlt ex hf
        obtain ⟨h1, ⟨k1, k2, k3⟩, hm⟩ := h
        have hc : ex ∈ db.cartItems := List.mem_of_find?_eq_some hf
        refine ⟨h1, ⟨?_, ?_, ?_⟩, hm⟩
        · show ((db.cartItems.map
            (fun x => if x.id == ex.id then { ex with quantity := ex.quantity + qty } else x)).map
              (fun x => (x.userId, x.productId))).Nodup
          rw [map_proj_replace_eq db.cartItems ex { ex with quantity := ex.quantity + qty } hc k2
            (fun x => (x.userId, x.productId)) rfl]
          exact k1
        · show ((db.cartItems.map
            (fun x => if x.id == ex.id then { ex with quantity := ex.quantity + qty } else x)).map
              (fun x => x.id)).Nodup
          rw [map_proj_replace_eq db.cartItems ex { ex with quantity := ex.quantity + qty } hc k2
            (fun x => x.id) rfl]
          exact k2
        · intro x hx
          rcases List.mem_map.1 hx with ⟨y, hy, rfl⟩
          by_cases hid : y.id = ex.id
          · simp only [beq_iff_eq, if_pos hid]
            exact k3 ex hc
          · simp only [beq_iff_eq, if_neg hid]
            exact k3 y hy
      · rename_i hlt hf
        obtain ⟨h1, ⟨k1, k2, k3⟩, ⟨m1, m2⟩⟩ := h
        refine ⟨h1, ⟨?_, ?_, ?_⟩, ⟨m1, ?_⟩⟩
        · show ((db.cartItems ++
            [({ id := db.nextId, userId := uid, productId := pid, quantity := qty } : CartItem)]).map
              (fun x => (x.userId, x.productId))).Nodup
          rw [List.map_append]
          refine k1.append (List.nodup_singleton _) ?_
          intro a ha hb
          rcases List.mem_map.1 ha with ⟨c, hc, rfl⟩
          have hkey := List.find?_eq_none.1 hf c hc
          simp only [Bool.and_eq_true, beq_iff_eq, not_and] at hkey
          simp only [List.map_cons, List.map_nil, List.mem_singleton] at hb
          rw [Prod.mk.injEq] at hb
          exact hkey hb.1 hb.2
        · show ((db.cartItems ++
            [({ id := db.nextId, userId := uid, productId := pid, quantity := qty } : CartItem)]).map
              (fun x => x.id)).Nodup
          rw [List.map_append]
          refine k2.append (List.nodup_singleton _) ?_
          intro a ha hb
          rcases List.mem_map.1 ha with ⟨c, hc, rfl⟩
          simp only [List.map_cons, List.map_nil, List.mem_singleton] at hb
          exact absurd hb (Nat.ne_of_lt (k3 c hc))
        · intro c hc
          rcases List.mem_append.1 hc with hc | hc
          · exact lt_trans (k3 c hc) (Nat.lt_succ_self _)
          · rcases List.mem_singleton.1 hc with rfl
            exact Nat.lt_succ_self _
        · intro q hq
          exact lt_trans (m2 q hq) (Nat.lt_succ_self _)

/-- Appending a row with a fresh generated key keeps the mapped key list
duplicate-free. -/
theorem nodup_map_append_fresh {α : Type} (f : α → Nat) (l : List α) (y : α) (n : Nat)
    (hnd : (l.map f).Nodup) (hlt : ∀ x ∈ l, f x < n) (hy : f y = n) :
    ((l ++ [y]).map f).Nodup := by
  rw [List.map_append]
  refine hnd.append (List.nodup_singleton _) ?_
  intro a ha hb
  rcases List.mem_map.1 ha with ⟨x, hx, rfl⟩
  simp only [List.map_cons, List.map_nil, List.mem_singleton] at hb
  rw [hy] at hb
  exact absurd hb (Nat.ne_of_lt (hlt x hx))

/-- `POST /api/products` preserves [DbInv]. -/
theorem dbInv_createProduct (db : DB) (u : User) (b : ProductCreateBody) (h : DbInv db) :
    DbInv (createProduct db u b).2 := by
  unfold createProduct
  split
  · exact h
  · split
    · exact h
    · rename_i hrole hval
      obtain ⟨h1, ⟨k1, k2, k3⟩, ⟨m1, m2⟩⟩ := h
      push_neg at hval
      refine ⟨?_, ⟨k1, k2, fun c hc => lt_trans (k3 c hc) (Nat.lt_succ_self _)⟩, ⟨?_, ?_⟩⟩
      · intro p hp
        rcases List.mem_append.1 hp with hp | hp
        · exact h1 p hp
        · rcases List.mem_singleton.1 hp with rfl
          exact hval.2.2.1
      · refine nodup_map_append_fresh (fun q => q.id) db.products _ db.nextId m1 m2 ?_
        rfl
      · intro p hp
        rcases List.mem_append.1 hp with hp | hp
        · exact lt_trans (m2 p hp) (Nat.lt_succ_self _)
        · rcases List.mem_singleton.1 hp with rfl
          exact Nat.lt_succ_self _

/-- `PUT /api/products/:id` preserves [DbInv], provided the request body does
not carry a negative `stock`. -/
theorem dbInv_updateProduct (db : DB) (u : User) (pid : Nat) (b : ProductUpdateBody)
    (hs : ∀ s, b.stock = some s → 0 ≤ s) (h : DbInv db) :
    DbInv (updateProduct db u pid b).2 := by
  unfold updateProduct
  split
  · exact h
  · split
    · exact h
    · rename_i hrole p hp
      obtain ⟨h1, hk, ⟨m1, m2⟩⟩ := h
      have hp' : db.products.find? (fun q => q.id == pid) = some p := hp
      have hbe := List.find?_some hp'
      have hpid : p.id = pid := by simpa using hbe
      have hpmem : p ∈ db.products := List.mem_of_find?_eq_some hp'
      refine ⟨?_, hk, ⟨?_, ?_⟩⟩
      · intro x hx
        rcases List.mem_map.1 hx with ⟨q, hq, rfl⟩
        by_cases hid : q.id = pid
        · simp only [beq_iff_eq, if_pos hid]
          show 0 ≤ (applyProductUpdate p b).stock
          rcases hb : b.stock with _ | s
          · have hst : (applyProductUpdate p b).stock = p.stock := by
              simp [applyProductUpdate, hb]
            rw [hst]
            exact h1 p hpmem
          · have hst : (applyProductUpdate p b).stock = s := by
              simp [applyProductUpdate, hb]
            rw [hst]
            exact hs s hb
        · simp only [beq_iff_eq, if_neg hid]
          exact h1 q hq
      · show ((db.products.map (fun q => if q.id == pid then applyProductUpdate p b else q)).map
          (fun q => q.id)).Nodup
        have hidmap : ((db.products.map
            (fun q => if q.id == pid then applyProductUpdate p b else q)).map
            (fun q => q.id)) = db.products.map (fun q => q.id) := by
          rw [List.map_map]
          refine List.map_congr_left ?_
          intro q hq
          simp only [Function.comp_apply, beq_iff_eq]
          by_cases hid : q.id = pid
          · rw [if_pos hid]
            show p.id = q.id
            rw [hpid, hid]
          · rw [if_neg hid]
        rw [hidmap]
        exact m1
      · intro x hx
        rcases List.mem_map.1 hx with ⟨q, hq, rfl⟩
        by_cases hid : q.id = pid
        · simp only [beq_iff_eq, if_pos hid]
          show p.id < db.nextId
          exact m2 p hpmem
        · simp only [beq_iff_eq, if_neg hid]
          exact m2 q hq

/-- `POST /api/orders` preserves [DbInv]: on the success path the pre-check
`stock < quantity` on each (per-user unique) cart line guarantees the
decremented stocks stay non-negative. -/
theorem dbInv_createOrder (db : DB) (uid : Nat) (h : DbInv db) :
    DbInv (createOrder db uid).2 := by
  unfold createOrder
  split
  · exact h
  · split
    · exact h
    · split
      · exact h
      · rename List (CartItem × Product) => lines
        rename fetchCart db uid = some lines => hfetch
        rename ℚ => total
        rename checkStockAndTotal lines = Except.ok total => hck
        show DbInv (orderTransaction db uid lines total).2
        obtain ⟨h1, ⟨k1, k2, k3⟩, ⟨m1, m2⟩⟩ := h
        rcases orderTransaction_spec db uid lines total with ⟨-, L, -, hOI, hF, hP, hC⟩
        have hpids : (lines.map (fun lp => lp.1.productId)).Nodup :=
          lines_pids_nodup db uid lines hfetch k1
        have hjoin := joinCart_spec db _ lines hfetch
        have hnle := orderTransaction_nextId_le db uid lines total
        refine ⟨?_, ⟨?_, ?_, ?_⟩, ⟨?_, ?_⟩⟩
        · intro x hx
          rw [hP] at hx
          rcases List.mem_map.1 hx with ⟨q, hq, rfl⟩
          show 0 ≤ q.stock - orderedQty q.id lines
          by_cases hqin : ∃ lp ∈ lines, lp.1.productId = q.id
          · rcases hqin with ⟨lp, hlp, hqpid⟩
            have hfp' : db.products.find? (fun r => r.id == lp.1.productId) = some lp.2 :=
              hjoin.2 lp hlp
            have hqf : db.products.find? (fun r => r.id == q.id) = some q :=
              find?_eq_self_of_nodup_ids db.products q m1 hq
            rw [hqpid] at hfp'
            have hq2 : lp.2 = q := by
              rw [hfp'] at hqf
              exact Option.some.inj hqf
            have hle := le_stock_of_checkStockAndTotal_ok lines total hck lp hlp
            have hqty := orderedQty_eq_of_nodup q.id lines lp hpids hlp hqpid
            rw [hqty, ← hq2]
            rw [hq2] at hle
            rw [hq2]
            exact sub_nonneg.2 hle
          · push_neg at hqin
            rw [orderedQty_eq_zero q.id lines hqin, sub_zero]
            exact h1 q hq
        · rw [hC]
          exact k1.sublist ((List.filter_sublist _).map _)
        · rw [hC]
          exact k2.sublist ((List.filter_sublist _).map _)
        · intro c hc
          rw [hC] at hc
          exact lt_of_lt_of_le (k3 c (List.mem_of_mem_filter hc)) hnle
        · rw [hP]
          have hmapid : ((db.products.map
              (fun p => { p with stock := p.stock - orderedQty p.id lines })).map
              (fun p => p.id)) = db.products.map (fun p => p.id) := by
            rw [List.map_map]
            rfl
          rw [hmapid]
          exact m1
        · intro x hx
          rw [hP] at hx
          rcases List.mem_map.1 hx with ⟨q, hq, rfl⟩
          show q.id < (orderTransaction db uid lines total).2.nextId
          exact lt_of_lt_of_le (m2 q hq) hnle

/-- One restricted sequential step preserves [DbInv]. -/
theorem dbInv_stepOk {db db' : DB} (hstep : StepOk db db') (h : DbInv db) : DbInv db' := by
  cases hstep with
  | addCart uid pid qty hq => exact dbInv_addToCart db uid pid qty h
  | updateCart uid cid qty hq => exact dbInv_updateCartItem db uid cid qty h
  | removeCart uid cid => exact dbInv_deleteCartItem db uid cid h
  | placeOrder uid => exact dbInv_createOrder db uid h
  | updateProd u pid b hs => exact dbInv_updateProduct db u pid b hs h
  | createProd u b => exact dbInv_createProduct db u b h
  | seller u => exact dbInv_becomeSeller db u h
  | addWish uid pid => exact dbInv_addToWishlist db uid pid h
  | removeWish uid pid => exact dbInv_deleteWishlistItem db uid pid h

/-- [DbInv] holds in every state reachable through restricted steps. -/
theorem dbInv_reachableOk {db db' : DB} (hr : ReachableOk db db') (h : DbInv db) : DbInv db' := by
  induction hr with
  | refl => exact h
  | tail hsteps hstep ih => exact dbInv_stepOk hstep ih

/-- **C3 counterexample.** Starting from [dbMain], whose only product has
stock 5 ≥ 0, one sequential step — the admin sending `PUT /api/products/10`
with body `{ stock: -1 }` — reaches a state with a negative stock, so the
claim as stated (over all sequential executions of the operations) is
false. -/
theorem stock_nonneg_counterexample :
    StockNonneg dbMain ∧ Reachable dbMain dbNegStock ∧ ¬ StockNonneg dbNegStock :=
  ⟨by unfold StockNonneg; decide,
   Relation.ReflTransGen.single (Step.updateProd dbMain adminA 10 bodyNegStock),
   by unfold StockNonneg; decide⟩

/-- **C3 (amended).** In every state reachable by a sequential execution of
the operations in which product updates never supply a negative `stock`
value in the request body (the restriction [StepOk] places on
`PUT /api/products/:id`; `POST /api/products` already validates
`stock ≥ 0`, and order placement — the only operation that decrements
stock — pre-checks `product.stock ≥ item.quantity` on every line), no
product's stock is ever negative, assuming every product starts with
non-negative stock in a database satisfying the schema constraints
([CartWF]: unique `(userId, productId)` cart key and fresh unique row ids;
[ProductsWF]: fresh unique product ids). -/
theorem stock_never_negative (db db' : DB)
    (h0 : StockNonneg db) (hcart : CartWF db) (hprod : ProductsWF db)
    (hr : ReachableOk db db') : StockNonneg db' :=
  (dbInv_reachableOk hr ⟨h0, hcart, hprod⟩).1

/-- Witness for the amended invariant: from [dbMain], user 1 adds 2 more
units of product 10 to the cart; all stocks stay non-negative. -/
theorem stock_never_negative_witness :
    StockNonneg (addToCart dbMain 1 10 2).2 :=
  stock_never_negative dbMain (addToCart dbMain 1 10 2).2
    (by unfold StockNonneg; decide)
    (by unfold CartWF; decide)
    (by unfold ProductsWF; decide)
    (Relation.ReflTransGen.single (StepOk.addCart dbMain 1 10 2 (by decide)))
